import Mathlib

/-!
Verification of the anytra prompt-enhancement service against its design
specification.  The development shallowly embeds the core components of the
repository — the validation gate (src/domain/validation.rs), the sequential
thinking engine (src/domain/sequential_thinking.rs), the provider gateway
retry loop (src/infrastructure/providers/openrouter.rs), the enhancement
orchestrator (src/usecases/enhance_prompt.rs), and the RPC dispatcher
(src/interface/mcp/server.rs) — as executable Lean definitions, and proves
the specified properties about them.

Modelling conventions:
* Rust strings are Lean `String`s; Rust `str::len` (UTF-8 byte length) is
  modelled by summing `Char.utf8Size`, and `split_whitespace` by counting
  maximal runs of non-whitespace characters under the Unicode White_Space
  predicate that Rust `char::is_whitespace` implements.
* `f32` arithmetic is modelled by exact rational arithmetic over `ℚ`.
* `u32`/`u64` casts are modelled on `Nat` with explicit `% 2 ^ 32` where the
  Rust code truncates (`as u32`).
* Fallible Rust functions returning `Result` are modelled with `Except`.
* The extended `EnhancementOptions` (with `enable_sequential_thinking` and
  `thought_count`) required by src/usecases/enhance_prompt.rs is used; the
  design document designates this variant as canonical.
-/

namespace Anytra

/-- The Unicode White_Space property, which Rust `char::is_whitespace`
tests.  Code points taken from the Unicode `PropList` entry used by Rust. -/
def isRustWhitespace (c : Char) : Bool :=
  let n := c.toNat
  (0x09 ≤ n && n ≤ 0x0D) || n = 0x20 || n = 0x85 || n = 0xA0 || n = 0x1680 ||
  (0x2000 ≤ n && n ≤ 0x200A) || n = 0x2028 || n = 0x2029 || n = 0x202F ||
  n = 0x205F || n = 0x3000

/-- Rust `str::trim`: drop leading and trailing whitespace characters. -/
def rustTrim (s : String) : String :=
  ⟨((s.data.dropWhile isRustWhitespace).reverse.dropWhile isRustWhitespace).reverse⟩

/-- Rust `str::len`: the length of the string in UTF-8 bytes. -/
def utf8Len (s : String) : Nat :=
  s.data.foldl (fun n c => n + c.utf8Size) 0

/-- Rust `str::split_whitespace(..).count()`: the number of maximal runs of
non-whitespace characters.  The fold state is (inside-a-word, count so far). -/
def wordCount (s : String) : Nat :=
  (s.data.foldl
    (fun (st : Bool × Nat) c =>
      if isRustWhitespace c then (false, st.2)
      else if st.1 then st else (true, st.2 + 1))
    (false, 0)).2

/-- Per-character lowercasing as Rust `str::to_lowercase` acts on the ASCII
range (the only range the denylist words can match). -/
def charLower (c : Char) : Char :=
  if c.toNat ≥ 0x41 && c.toNat ≤ 0x5A then Char.ofNat (c.toNat + 32) else c

/-- Contiguous-substring search over character lists (the semantics of Rust
`str::contains` for a string pattern). -/
def listContains (hay needle : List Char) : Bool :=
  match hay with
  | [] => needle.isEmpty
  | _ :: t => needle.isPrefixOf hay || listContains t needle

/-- Rust `str::contains(word)` applied to the lowercased text: `word` occurs
as a contiguous substring. -/
def containsWord (text : String) (word : String) : Bool :=
  listContains (text.data.map charLower) word.data

/-- src/domain/validation.rs `ValidationError`. -/
inductive ValidationError where
  | EmptyPrompt : ValidationError
  | TooShort : ValidationError
  | TooLong : ValidationError
  | InappropriateContent : String → ValidationError
  | TooSimple : ValidationError
deriving DecidableEq, Repr

/-- The `Display` implementation of `ValidationError`. -/
def ValidationError.display : ValidationError → String
  | .EmptyPrompt => "Enhanced prompt is empty"
  | .TooShort => "Enhanced prompt is too short"
  | .TooLong => "Enhanced prompt is too long"
  | .InappropriateContent w => "Inappropriate content detected: " ++ w
  | .TooSimple => "Enhanced prompt is too simple"

/-- src/domain/models.rs `EnhancedPrompt`; the `f32` confidence is modelled
as a rational number. -/
structure EnhancedPrompt where
  text : String
  rationale : Option String
  confidence : Option ℚ
deriving DecidableEq, Repr

/-- The denylist of src/domain/validation.rs (`bad_words`). -/
def bad_words : List String := ["inappropriate", "offensive"]

/-- src/domain/validation.rs `validate_enhanced_prompt`: the ordered
fail-fast cascade of checks. -/
def validate_enhanced_prompt (prompt : EnhancedPrompt) :
    Except ValidationError Unit :=
  if (rustTrim prompt.text).data.isEmpty then .error .EmptyPrompt
  else
    let len := utf8Len prompt.text
    if len < 10 then .error .TooShort
    else if len > 5000 then .error .TooLong
    else if wordCount prompt.text < 10 then .error .TooSimple
    else
      match bad_words.find? (fun w => containsWord prompt.text w) with
      | some w => .error (.InappropriateContent w)
      | none => .ok ()

/-- The confidence formula of src/domain/validation.rs `compute_confidence`
as a function of the byte length and word count. -/
def confidenceOf (len wc : Nat) : ℚ :=
  (min ((len : ℚ) / 1000) 1 + min ((wc : ℚ) / 50) 1) / 2

/-- src/domain/validation.rs `compute_confidence`. -/
def compute_confidence (prompt : EnhancedPrompt) : ℚ :=
  confidenceOf (utf8Len prompt.text) (wordCount prompt.text)

/-! ## Sequential thinking engine (src/domain/sequential_thinking.rs) -/

/-- A minimal model of `serde_json::Value`.  Numbers are restricted to the
non-negative integers, which is the domain on which `Value::as_u64` — the
only numeric accessor the engine uses — succeeds. -/
inductive Json where
  | null : Json
  | bool : Bool → Json
  | num : Nat → Json
  | str : String → Json
  | arr : List Json → Json
  | obj : List (String × Json) → Json

/-- `Value::get(key)` on an object (first matching key). -/
def Json.getKey : Json → String → Option Json
  | .obj fs, k => fs.lookup k
  | _, _ => none

/-- `Value::as_str`. -/
def Json.asStr : Json → Option String
  | .str s => some s
  | _ => none

/-- `Value::as_u64` (on this model, any `num`). -/
def Json.asU64 : Json → Option Nat
  | .num n => some n
  | _ => none

/-- `Value::as_bool`. -/
def Json.asBool : Json → Option Bool
  | .bool b => some b
  | _ => none

/-- src/domain/sequential_thinking.rs `ThoughtData`.  The `u32` fields are
naturals kept below `2 ^ 32` by the `as u32` truncation in the parser. -/
structure ThoughtData where
  thought : String
  thought_number : Nat
  total_thoughts : Nat
  is_revision : Option Bool
  revises_thought : Option Nat
  branch_from_thought : Option Nat
  branch_id : Option String
  needs_more_thoughts : Option Bool
  next_thought_needed : Bool
deriving DecidableEq, Repr

/-- `ThoughtData::new`: all optional metadata absent. -/
def ThoughtData.new (thought : String) (thought_number total_thoughts : Nat)
    (next_thought_needed : Bool) : ThoughtData :=
  ⟨thought, thought_number, total_thoughts, none, none, none, none, none,
   next_thought_needed⟩

/-- `ThoughtData::with_branch`. -/
def ThoughtData.with_branch (td : ThoughtData) (branch_from : Nat)
    (branch_id : String) : ThoughtData :=
  { td with branch_from_thought := some branch_from, branch_id := some branch_id }

/-- src/domain/sequential_thinking.rs `SequentialThinking` state: the main
sequence plus the branch map.  The `HashMap<String, Vec<ThoughtData>>` is
modelled as an association list with unique keys; only key lookup and the
`entry(..).or_insert_with(..).push(..)` update are used by the code. -/
structure SequentialThinking where
  thought_history : List ThoughtData
  branches : List (String × List ThoughtData)

/-- `SequentialThinking::new`. -/
def SequentialThinking.new : SequentialThinking := ⟨[], []⟩

/-- `self.branches.entry(branch_id).or_insert_with(Vec::new).push(td)`:
append to the branch sub-sequence, creating the entry if the key is new. -/
def pushBranch (bs : List (String × List ThoughtData)) (b : String)
    (td : ThoughtData) : List (String × List ThoughtData) :=
  match bs with
  | [] => [(b, [td])]
  | (k, l) :: rest =>
      if k = b then (k, l ++ [td]) :: rest else (k, l) :: pushBranch rest b td

/-- `SequentialThinking::validate_thought_data`: parse the required fields
(`thought`, `thoughtNumber`, `totalThoughts`, `nextThoughtNeeded`) and the
optional branch fields from the JSON input.  The `as u32` casts truncate
modulo `2 ^ 32`.  The revision fields are never read from the input. -/
def SequentialThinking.validate_thought_data (input : Json) :
    Except String ThoughtData :=
  match input with
  | .obj _ =>
    match (input.getKey "thought").bind Json.asStr with
    | none => .error "Invalid thought: must be a string"
    | some thought =>
      match (input.getKey "thoughtNumber").bind Json.asU64 with
      | none => .error "Invalid thoughtNumber: must be a number"
      | some tn =>
        match (input.getKey "totalThoughts").bind Json.asU64 with
        | none => .error "Invalid totalThoughts: must be a number"
        | some tt =>
          match (input.getKey "nextThoughtNeeded").bind Json.asBool with
          | none => .error "Invalid nextThoughtNeeded: must be a boolean"
          | some ntn =>
            let branch_from :=
              ((input.getKey "branchFromThought").bind Json.asU64).map
                (· % 2 ^ 32)
            let branch_id := (input.getKey "branchId").bind Json.asStr
            let td := ThoughtData.new thought (tn % 2 ^ 32) (tt % 2 ^ 32) ntn
            .ok (match branch_from, branch_id with
                 | some bf, some bid => td.with_branch bf bid
                 | _, _ => td)
  | _ => .error "Input must be a JSON object"

/-- The marker chosen by `SequentialThinking::format_thought`. -/
def thoughtMarker (td : ThoughtData) : String :=
  if td.is_revision.getD false then "🔄 Revision"
  else if td.branch_from_thought.isSome then "🌿 Branch"
  else "💭 Thought"

/-- The context part of `SequentialThinking::format_thought`.  The Rust
`{:?}` debug rendering of `Option<String>` is modelled without character
escaping (the branch ids involved contain no characters that Rust would
escape). -/
def thoughtContext (td : ThoughtData) : String :=
  match td.revises_thought with
  | some revises => " (revising thought " ++ toString revises ++ ")"
  | none =>
    match td.branch_from_thought with
    | some bf =>
        " (from thought " ++ toString bf ++ ", ID: " ++
          (match td.branch_id with
           | some bid => "Some(\"" ++ bid ++ "\")"
           | none => "None") ++ ")"
    | none => ""

/-- `SequentialThinking::format_thought`: the human-readable diagnostic
line (marker, thought_number/total_thoughts pair, context, thought text). -/
def format_thought (td : ThoughtData) : String :=
  thoughtMarker td ++ " " ++ toString td.thought_number ++ "/" ++
    toString td.total_thoughts ++ thoughtContext td ++ "\n" ++ td.thought

/-- The summary object returned by `process_thought` (its JSON fields as a
structure). -/
structure ThoughtSummary where
  thoughtNumber : Nat
  totalThoughts : Nat
  nextThoughtNeeded : Bool
  branches : List String
  thoughtHistoryLength : Nat
deriving DecidableEq, Repr

/-- `SequentialThinking::process_thought`: validate, raise `total_thoughts`
to `thought_number` when exceeded, append to the main sequence and (when
both branch fields are present) the branch sub-sequence, and return the
summary together with the updated session.  The `eprintln!` of the
formatted thought is a diagnostic side effect and is not modelled. -/
def SequentialThinking.process_thought (st : SequentialThinking)
    (input : Json) : Except String (SequentialThinking × ThoughtSummary) :=
  match SequentialThinking.validate_thought_data input with
  | .error e => .error e
  | .ok td0 =>
    let td :=
      if td0.thought_number > td0.total_thoughts then
        { td0 with total_thoughts := td0.thought_number }
      else td0
    let hist := st.thought_history ++ [td]
    let brs :=
      match td.branch_from_thought, td.branch_id with
      | some _, some bid => pushBranch st.branches bid td
      | _, _ => st.branches
    let st' : SequentialThinking := ⟨hist, brs⟩
    .ok (st', ⟨td.thought_number, td.total_thoughts, td.next_thought_needed,
               brs.map Prod.fst, hist.length⟩)

/-! ## Provider gateway (src/infrastructure/providers/openrouter.rs) -/

/-- src/domain/models.rs `Prompt`. -/
structure Prompt where
  text : String
deriving DecidableEq, Repr

/-- src/domain/models.rs `EnhancementOptions`, in the extended variant
required by src/usecases/enhance_prompt.rs (the design document designates
this variant, with the two sequential-thinking fields, as canonical). -/
structure EnhancementOptions where
  goal : Option String := none
  style : Option String := none
  tone : Option String := none
  level : Option Nat := none
  audience : Option String := none
  language : Option String := none
  enable_sequential_thinking : Option Bool := none
  thought_count : Option Nat := none
deriving DecidableEq, Repr

/-- src/domain/llm.rs `LLMError`. -/
inductive LLMError where
  | NotConfigured : String → LLMError
  | RequestFailed : String → LLMError
  | UnexpectedResponse : String → LLMError
deriving DecidableEq, Repr

/-- The `thiserror` `Display` implementation of `LLMError`. -/
def LLMError.display : LLMError → String
  | .NotConfigured m => "provider not configured: " ++ m
  | .RequestFailed m => "request failed: " ++ m
  | .UnexpectedResponse m => "unexpected response: " ++ m

/-- An HTTP response as the gateway observes it: the status code, and the
outcome of deserializing the body into `ChatResponse` — `none` when the body
cannot be parsed into the expected shape, otherwise the list of choice
message contents. -/
structure HttpResp where
  status : Nat
  choices : Option (List String)

/-- The outcome of one transport attempt (`reqwest` `send()`): a
connection/timeout failure, or a response. -/
inductive SendOutcome where
  | fail : SendOutcome
  | succ : HttpResp → SendOutcome

/-- `reqwest::StatusCode::is_success()`: the 2xx range. -/
def statusIsSuccess (status : Nat) : Bool :=
  200 ≤ status && status ≤ 299

/-- `MAX_RETRIES` of `OpenRouterClient::enhance`. -/
def MAX_RETRIES : Nat := 3

/-- The retry loop of `OpenRouterClient::enhance` lines 130-147, with the
transport abstracted as a function from the attempt number (1-based) to the
outcome of that attempt.  Returns the backoff delays slept (in
milliseconds, in order) and `some resp` when an attempt obtained a
response, or `none` when the attempt count reached `MAX_RETRIES` with only
transport failures.  `attempts` is the count of attempts already made and
`fuel` bounds the recursion (the loop makes at most `MAX_RETRIES`
attempts, so `fuel = MAX_RETRIES` at the top level makes the fuel case
unreachable). -/
def sendWithRetry (transport : Nat → SendOutcome) :
    Nat → Nat → List Nat × Option HttpResp
  | _, 0 => ([], none)
  | attempts, fuel + 1 =>
    let a := attempts + 1
    match transport a with
    | .succ r => ([], some r)
    | .fail =>
      if a ≥ MAX_RETRIES then ([], none)
      else
        let delay := 500 * 2 ^ (a - 1)
        let (ds, out) := sendWithRetry transport a fuel
        (delay :: ds, out)

/-- `OpenRouterClient::enhance` from the point the request payload has been
built: the retry/backoff/degradation state machine and the response
handling.  The instruction block, few-shot selection and header
construction only shape the outbound payload, which the abstract transport
absorbs; they do not affect the control flow modelled here.  Returns the
backoff delays slept along with the result. -/
def openrouterEnhance (prompt : Prompt) (transport : Nat → SendOutcome) :
    List Nat × Except LLMError EnhancedPrompt :=
  let (ds, out) := sendWithRetry transport 0 MAX_RETRIES
  match out with
  | none =>
      -- graceful degradation after MAX_RETRIES transport failures
      (ds, .ok ⟨"Enhanced: " ++ prompt.text,
                some "Fallback due to API failure after retries",
                some (3 / 10)⟩)
  | some resp =>
      if ¬ statusIsSuccess resp.status then
        (ds, .error (.RequestFailed ("status " ++ toString resp.status)))
      else
        match resp.choices with
        | none => (ds, .error (.UnexpectedResponse "body parse failure"))
        | some choices =>
          match choices.head? with
          | none => (ds, .error (.UnexpectedResponse "no choices"))
          | some content =>
              (ds, .ok ⟨rustTrim content, none, none⟩)

/-! ## Enhancement orchestrator (src/usecases/enhance_prompt.rs) -/

/-- The slice of src/infrastructure/config.rs `Config` the orchestrator
reads: `Config::sequential_thinking_enabled()` returns the process-wide
default for sequential thinking. -/
structure Config where
  sequential_thinking_enabled : Bool
deriving DecidableEq, Repr

/-- An error escaping `EnhancePrompt::execute` (an `anyhow::Error` built
from either the provider error or the validation error). -/
inductive ExecError where
  | provider : LLMError → ExecError
  | validation : ValidationError → ExecError
deriving DecidableEq, Repr

/-- The `Display` of the `anyhow::Error` returned by `execute` (the display
of the underlying source error). -/
def ExecError.display : ExecError → String
  | .provider e => e.display
  | .validation v => v.display

/-- The `json!` thought record built by `EnhancePrompt::execute` for loop
iteration `i` of `n` (`nextNeeded` is `!is_last_thought`). -/
def mkThoughtInput (text : String) (i n : Nat) (nextNeeded : Bool) : Json :=
  .obj [("thought", .str text), ("thoughtNumber", .num i),
        ("totalThoughts", .num n), ("nextThoughtNeeded", .bool nextNeeded)]

/-- The options passed to the nested gateway call inside the refinement
loop: sequential thinking forced off. -/
def seqOff (options : EnhancementOptions) : EnhancementOptions :=
  { options with enable_sequential_thinking := some false }

/-- The refinement loop of `EnhancePrompt::execute` (`for i in
1..=thought_count`), with the provider abstracted as a pure function.  On a
thinking-engine failure the loop stops early keeping the current value; on
a nested provider failure the error propagates out of `execute`. -/
def thinkLoop (provider : Prompt → EnhancementOptions → Except LLMError EnhancedPrompt)
    (options : EnhancementOptions) (n : Nat) (st : SequentialThinking)
    (enhanced : EnhancedPrompt) (i : Nat) : Except ExecError EnhancedPrompt :=
  if _h : n < i then .ok enhanced
  else
    let isLast := i == n
    match st.process_thought (mkThoughtInput enhanced.text i n (!isLast)) with
    | .error _ => .ok enhanced
    | .ok (st', _) =>
      if isLast then thinkLoop provider options n st' enhanced (i + 1)
      else
        match provider ⟨enhanced.text⟩ (seqOff options) with
        | .error e => .error (.provider e)
        | .ok enhanced' => thinkLoop provider options n st' enhanced' (i + 1)
termination_by n + 1 - i
decreasing_by all_goals omega

/-- `EnhancePrompt::execute`: first gateway pass, validation gate,
confidence assignment, then the optional sequential-thinking refinement
loop. -/
def execute (provider : Prompt → EnhancementOptions → Except LLMError EnhancedPrompt)
    (config : Config) (prompt : Prompt) (options : EnhancementOptions) :
    Except ExecError EnhancedPrompt :=
  match provider prompt options with
  | .error e => .error (.provider e)
  | .ok enhanced0 =>
    match validate_enhanced_prompt enhanced0 with
    | .error v => .error (.validation v)
    | .ok _ =>
      let enhanced :=
        { enhanced0 with confidence := some (compute_confidence enhanced0) }
      if options.enable_sequential_thinking.getD
          config.sequential_thinking_enabled then
        thinkLoop provider options (options.thought_count.getD 3)
          SequentialThinking.new enhanced 1
      else
        .ok enhanced

/-! ## RPC dispatcher (src/interface/mcp/server.rs) -/

/-- `JsonRpcRequest` after deserialization: `id` optional and echoed back,
`params` defaulting to an empty structure, `jsonrpc` defaulting to "2.0"
(and never read). -/
structure JsonRpcRequest where
  jsonrpc : String := "2.0"
  id : Option Json := none
  method : String
  params : Json := .null

/-- `JsonRpcError`. -/
structure JsonRpcError where
  code : Int
  message : String
  data : Option Json := none

/-- `JsonRpcResponse` (the `jsonrpc` field is always "2.0"; absent `result`
and `error` fields are skipped during serialization). -/
structure JsonRpcResponse where
  jsonrpc : String := "2.0"
  id : Option Json
  result : Option Json
  error : Option JsonRpcError

/-- `ToolCallParams` after deserialization. -/
structure ToolCallParams where
  name : String
  arguments : Json

/-- serde deserialization of `ToolCallParams` from `req.params`: `name` is
a required string, `arguments` defaults to `Value::Null` when absent. -/
def parseToolCallParams (j : Json) : Except String ToolCallParams :=
  match j with
  | .obj fs =>
    match fs.lookup "name" with
    | some (.str n) => .ok ⟨n, (fs.lookup "arguments").getD .null⟩
    | some _ => .error "invalid type for field name"
    | none => .error "missing field name"
  | _ => .error "expected a map"

/-- `EnhanceArgs` after deserialization. -/
structure EnhanceArgs where
  prompt : String
  goal : Option String := none
  style : Option String := none
  tone : Option String := none
  level : Option Nat := none
  audience : Option String := none
  language : Option String := none

/-- serde deserialization of an `Option<String>` field (absent or `null`
gives `None`; a string gives `Some`; any other shape is an error). -/
def parseOptStr (fs : List (String × Json)) (key : String) :
    Except String (Option String) :=
  match fs.lookup key with
  | none => .ok none
  | some .null => .ok none
  | some (.str s) => .ok (some s)
  | some _ => .error ("invalid type for field " ++ key)

/-- serde deserialization of the `Option<u8>` field `level` (a number must
fit in `u8`). -/
def parseOptU8 (fs : List (String × Json)) (key : String) :
    Except String (Option Nat) :=
  match fs.lookup key with
  | none => .ok none
  | some .null => .ok none
  | some (.num n) => if n ≤ 255 then .ok (some n) else .error "u8 out of range"
  | some _ => .error ("invalid type for field " ++ key)

/-- serde deserialization of `EnhanceArgs` from `params.arguments`:
required `prompt` string, optional `goal`, `style`, `tone`, `level`,
`audience`, `language`. -/
def parseEnhanceArgs (j : Json) : Except String EnhanceArgs :=
  match j with
  | .obj fs =>
    match fs.lookup "prompt" with
    | some (.str p) =>
      match parseOptStr fs "goal" with
      | .error e => .error e
      | .ok goal =>
      match parseOptStr fs "style" with
      | .error e => .error e
      | .ok style =>
      match parseOptStr fs "tone" with
      | .error e => .error e
      | .ok tone =>
      match parseOptU8 fs "level" with
      | .error e => .error e
      | .ok level =>
      match parseOptStr fs "audience" with
      | .error e => .error e
      | .ok audience =>
      match parseOptStr fs "language" with
      | .error e => .error e
      | .ok language =>
        .ok ⟨p, goal, style, tone, level, audience, language⟩
    | some _ => .error "invalid type for field prompt"
    | none => .error "missing field prompt"
  | _ => .error "expected a map"

/-- The `EnhancementOptions` the dispatcher builds from the tool arguments
(server.rs line 173); the sequential-thinking fields are not populated
there and take their defaults. -/
def argsToOptions (a : EnhanceArgs) : EnhancementOptions :=
  { goal := a.goal, style := a.style, tone := a.tone, level := a.level,
    audience := a.audience, language := a.language }

/-- The content envelope of a successful tool call:
`{content:[{type:"text", text}]}`. -/
def contentEnvelope (text : String) : Json :=
  .obj [("content", .arr [.obj [("type", .str "text"), ("text", .str text)]])]

/-- The content envelope of a failed tool call:
`{content:[{type:"text", text}], isError:true}`. -/
def errorEnvelope (text : String) : Json :=
  .obj [("content", .arr [.obj [("type", .str "text"), ("text", .str text)]]),
        ("isError", .bool true)]

/-- The static `initialize` capability/version descriptor (the package
version string is immaterial to every claim). -/
def initializeResult : Json :=
  .obj [("protocolVersion", .str "2024-11-05"),
        ("capabilities", .obj [("tools", .obj [("list", .bool true),
                                               ("call", .bool true)])]),
        ("serverInfo", .obj [("name", .str "anytra"),
                             ("version", .str "0.1.0")])]

/-- The `tools/list` result: the single `enhance_prompt` tool descriptor
(schema body condensed from server.rs lines 145-158). -/
def toolsListResult : Json :=
  .obj [("tools", .arr [.obj
    [("name", .str "enhance_prompt"),
     ("description", .str "Enhance a user prompt for clarity, constraints, and specificity"),
     ("inputSchema", .obj
       [("type", .str "object"),
        ("required", .arr [.str "prompt"])])]])]

/-- `handle_request`: route by method name; `tools/call` parses the params
and arguments, invokes the orchestrator (abstracted as `orch`), and maps
its outcome to a content envelope — the error side to an `isError:true`
envelope inside a normal result, never to a JSON-RPC-level error. -/
def handle_request (orch : Prompt → EnhancementOptions → Except ExecError EnhancedPrompt)
    (req : JsonRpcRequest) : JsonRpcResponse :=
  if req.method = "initialize" ∨ req.method = "mcp/initialize" then
    ⟨"2.0", req.id, some initializeResult, none⟩
  else if req.method = "tools/list" then
    ⟨"2.0", req.id, some toolsListResult, none⟩
  else if req.method = "tools/call" then
    match parseToolCallParams req.params with
    | .error e =>
        ⟨"2.0", req.id, none, some ⟨-32602, "invalid params: " ++ e, none⟩⟩
    | .ok p =>
      if p.name ≠ "enhance_prompt" then
        ⟨"2.0", req.id, none, some ⟨-32601, "unknown tool: " ++ p.name, none⟩⟩
      else
        match parseEnhanceArgs p.arguments with
        | .error e =>
            ⟨"2.0", req.id, none,
             some ⟨-32602, "invalid arguments: " ++ e, none⟩⟩
        | .ok a =>
          match orch ⟨a.prompt⟩ (argsToOptions a) with
          | .ok ep =>
              ⟨"2.0", req.id, some (contentEnvelope ep.text), none⟩
          | .error e =>
              ⟨"2.0", req.id,
               some (errorEnvelope ("tool error: " ++ e.display)), none⟩
  else if req.method = "ping" then
    ⟨"2.0", req.id, some (.obj [("message", .str "pong")]), none⟩
  else if req.method = "shutdown" then
    ⟨"2.0", req.id, some (.obj [("ok", .bool true)]), none⟩
  else
    ⟨"2.0", req.id, none,
     some ⟨-32601, "unknown method: " ++ req.method, none⟩⟩

/-- One iteration of the `run_stdio_server` read loop for a non-blank line,
with the `serde_json::from_str` outcome abstracted: a parse failure yields
the protocol-level −32700 response with no `id`; a parsed request is
dispatched to `handle_request`. -/
def dispatchLine (orch : Prompt → EnhancementOptions → Except ExecError EnhancedPrompt)
    (parsed : Except String JsonRpcRequest) : JsonRpcResponse :=
  match parsed with
  | .error e => ⟨"2.0", none, none, some ⟨-32700, "parse error: " ++ e, none⟩⟩
  | .ok req => handle_request orch req

/-! ## Session-level helpers -/

/-- Feed a sequence of raw records to one session, one `process_thought`
call per element; a failing call leaves the session unchanged (the Rust
method returns its error before any mutation). -/
def processMany (st : SequentialThinking) (js : List Json) :
    SequentialThinking :=
  js.foldl
    (fun s j =>
      match s.process_thought j with
      | .ok (s', _) => s'
      | .error _ => s)
    st

/-- The session resulting from one `process_thought` call (unchanged on
failure). -/
def stepState (st : SequentialThinking) (j : Json) : SequentialThinking :=
  match st.process_thought j with
  | .ok (st', _) => st'
  | .error _ => st

/-- The `totalThoughts` field of the summary returned by one
`process_thought` call. -/
def stepTotal (st : SequentialThinking) (j : Json) : Option Nat :=
  match st.process_thought j with
  | .ok (_, r) => some r.totalThoughts
  | .error _ => none

/-- A record belongs to branch `b`: it carries both branch fields and its
`branch_id` is `b`. -/
def branchFilter (b : String) (td : ThoughtData) : Bool :=
  td.branch_from_thought.isSome && td.branch_id == some b

/-- The sub-sequence the session stores for branch `b` (empty when the
branch is unknown). -/
def branchOf (st : SequentialThinking) (b : String) : List ThoughtData :=
  (st.branches.lookup b).getD []

/-- A concrete well-formed raw record carrying both branch fields. -/
def c10Input : Json :=
  .obj [("thought", .str "t"), ("thoughtNumber", .num 2),
        ("totalThoughts", .num 2), ("nextThoughtNeeded", .bool false),
        ("branchFromThought", .num 1), ("branchId", .str "B")]

/-- A concrete sequence of well-formed raw records, the second of which
carries branch fields. -/
def c7Records : List Json :=
  [mkThoughtInput "one" 1 2 true, c10Input]

/-- The refinement chain as the specification describes it: starting from
the validated and scored first result, `k` nested gateway calls, each on
the current text with sequential thinking forced off, each replacing the
current value; a nested provider failure propagates out. -/
def nestedChain
    (provider : Prompt → EnhancementOptions → Except LLMError EnhancedPrompt)
    (options : EnhancementOptions) (e : EnhancedPrompt) :
    Nat → Except ExecError EnhancedPrompt
  | 0 => .ok e
  | k + 1 =>
    match provider ⟨e.text⟩ (seqOff options) with
    | .error err => .error (.provider err)
    | .ok e' => nestedChain provider options e' k

/-- A ten-word text that passes the validation gate. -/
def c5Good : String := "one two three four five six seven eight nine ten"

/-- A provider stub whose first answer passes the gate and whose nested
answer does not. -/
def c5Provider : Prompt → EnhancementOptions → Except LLMError EnhancedPrompt :=
  fun p _ =>
    if p.text = "start" then .ok ⟨c5Good, none, none⟩
    else .ok ⟨"bad", none, none⟩

/-- Options enabling sequential thinking with two thoughts. -/
def c5Options : EnhancementOptions :=
  { enable_sequential_thinking := some true, thought_count := some 2 }

/-! ## Theorems -/

/-- Claim C3: `validate_enhanced_prompt` evaluates its checks in a fixed
order with the first failure winning: trimmed-empty text gives
`EmptyPrompt`; otherwise byte length below 10 gives `TooShort`; otherwise
byte length above 5000 gives `TooLong`; otherwise a word count below 10
gives `TooSimple`; otherwise a case-insensitive denylist substring match
gives `InappropriateContent` with that word — and the denylist check fires
only when every length and word-count check passes; when nothing fails the
result is `Ok`. -/
theorem validate_ordered_cascade (p : EnhancedPrompt) :
    ((rustTrim p.text).data.isEmpty = true →
      validate_enhanced_prompt p = .error .EmptyPrompt)
  ∧ ((rustTrim p.text).data.isEmpty = false → utf8Len p.text < 10 →
      validate_enhanced_prompt p = .error .TooShort)
  ∧ ((rustTrim p.text).data.isEmpty = false → 10 ≤ utf8Len p.text →
      5000 < utf8Len p.text → validate_enhanced_prompt p = .error .TooLong)
  ∧ ((rustTrim p.text).data.isEmpty = false → 10 ≤ utf8Len p.text →
      utf8Len p.text ≤ 5000 → wordCount p.text < 10 →
      validate_enhanced_prompt p = .error .TooSimple)
  ∧ (∀ w, (rustTrim p.text).data.isEmpty = false → 10 ≤ utf8Len p.text →
      utf8Len p.text ≤ 5000 → 10 ≤ wordCount p.text →
      bad_words.find? (fun w => containsWord p.text w) = some w →
      validate_enhanced_prompt p = .error (.InappropriateContent w))
  ∧ (∀ w, validate_enhanced_prompt p = .error (.InappropriateContent w) →
      (rustTrim p.text).data.isEmpty = false ∧ 10 ≤ utf8Len p.text ∧
      utf8Len p.text ≤ 5000 ∧ 10 ≤ wordCount p.text ∧
      w ∈ bad_words ∧ containsWord p.text w = true)
  ∧ ((rustTrim p.text).data.isEmpty = false → 10 ≤ utf8Len p.text →
      utf8Len p.text ≤ 5000 → 10 ≤ wordCount p.text →
      (∀ w ∈ bad_words, containsWord p.text w = false) →
      validate_enhanced_prompt p = .ok ()) := by
  refine ⟨?_, ?_, ?_, ?_, ?_, ?_, ?_⟩
  · intro h
    simp [validate_enhanced_prompt, h]
  · intro h1 h2
    simp [validate_enhanced_prompt, h1, h2]
  · intro h1 h2 h3
    simp [validate_enhanced_prompt, h1, h3, Nat.not_lt.mpr h2]
  · intro h1 h2 h3 h4
    simp [validate_enhanced_prompt, h1, h4, Nat.not_lt.mpr h2,
          Nat.not_lt.mpr h3]
  · intro w h1 h2 h3 h4 hfind
    simp [validate_enhanced_prompt, h1, Nat.not_lt.mpr h2,
          Nat.not_lt.mpr h3, Nat.not_lt.mpr h4, hfind]
  · intro w h
    by_cases h1 : (rustTrim p.text).data.isEmpty
    · simp [validate_enhanced_prompt, h1] at h
    by_cases h2 : utf8Len p.text < 10
    · simp only [Bool.not_eq_true] at h1
      simp [validate_enhanced_prompt, h1, h2] at h
    by_cases h3 : 5000 < utf8Len p.text
    · simp only [Bool.not_eq_true] at h1
      simp [validate_enhanced_prompt, h1, h2, h3] at h
    by_cases h4 : wordCount p.text < 10
    · simp only [Bool.not_eq_true] at h1
      simp [validate_enhanced_prompt, h1, h2, h3, h4] at h
    simp only [Bool.not_eq_true] at h1
    simp only [validate_enhanced_prompt, h1, h2, h3, h4, if_false,
               Bool.false_eq_true, if_neg, ite_false] at h
    rcases hfind : bad_words.find? (fun w => containsWord p.text w) with
      _ | w'
    · rw [hfind] at h
      exact absurd h (by simp)
    · rw [hfind] at h
      have hw : w' = w := by
        by_contra hne
        exact absurd h (by simp [hne])
      subst hw
      refine ⟨h1, Nat.not_lt.mp h2, Nat.not_lt.mp h3, Nat.not_lt.mp h4,
              List.mem_of_find?_eq_some hfind, List.find?_some hfind⟩
  · intro h1 h2 h3 h4 hnone
    have hfind : bad_words.find? (fun w => containsWord p.text w) = none := by
      rw [List.find?_eq_none]
      intro w hw
      simp [hnone w hw]
    simp [validate_enhanced_prompt, h1, Nat.not_lt.mpr h2,
          Nat.not_lt.mpr h3, Nat.not_lt.mpr h4, hfind]

/-- Witness for the C3 theorem at concrete inputs: the empty text fails
with `EmptyPrompt`, and a nine-byte text fails with `TooShort`. -/
theorem validate_ordered_cascade_witness :
    validate_enhanced_prompt ⟨"", none, none⟩ = .error .EmptyPrompt ∧
    validate_enhanced_prompt ⟨"abcdefghi", none, none⟩ = .error .TooShort := by
  constructor
  · exact (validate_ordered_cascade ⟨"", none, none⟩).1 (by rfl)
  · exact (validate_ordered_cascade ⟨"abcdefghi", none, none⟩).2.1
      (by rfl) (by decide)

/-- Claim C9: `compute_confidence` is the average of the two capped ratios
`min(len/1000, 1)` and `min(words/50, 1)`; the value lies in `[0, 1]`, is
monotonically non-decreasing in byte length and in word count, and equals
exactly 1 once the byte length is at least 1000 and the word count at
least 50. -/
theorem compute_confidence_props :
    (∀ p : EnhancedPrompt, compute_confidence p =
        (min ((utf8Len p.text : ℚ) / 1000) 1 +
         min ((wordCount p.text : ℚ) / 50) 1) / 2)
  ∧ (∀ len wc : Nat, 0 ≤ confidenceOf len wc ∧ confidenceOf len wc ≤ 1)
  ∧ (∀ len len' wc wc' : Nat, len ≤ len' → wc ≤ wc' →
      confidenceOf len wc ≤ confidenceOf len' wc')
  ∧ (∀ len wc : Nat, 1000 ≤ len → 50 ≤ wc → confidenceOf len wc = 1) := by
  refine ⟨fun p => rfl, ?_, ?_, ?_⟩
  · intro len wc
    have h1 : (0:ℚ) ≤ min ((len : ℚ) / 1000) 1 :=
      le_min (by positivity) zero_le_one
    have h2 : (0:ℚ) ≤ min ((wc : ℚ) / 50) 1 :=
      le_min (by positivity) zero_le_one
    have h3 : min ((len : ℚ) / 1000) 1 ≤ 1 := min_le_right _ _
    have h4 : min ((wc : ℚ) / 50) 1 ≤ 1 := min_le_right _ _
    constructor
    · unfold confidenceOf
      linarith
    · unfold confidenceOf
      linarith
  · intro len len' wc wc' hlen hwc
    unfold confidenceOf
    gcongr
  · intro len wc hlen hwc
    unfold confidenceOf
    rw [min_eq_right, min_eq_right]
    · norm_num
    · rw [le_div_iff₀ (by norm_num)]
      norm_num
      exact_mod_cast hwc
    · rw [le_div_iff₀ (by norm_num)]
      norm_num
      exact_mod_cast hlen

/-- Witness for the C9 theorem: at byte length 1000 and word count 50 the
confidence is exactly 1, and monotonicity holds at a concrete pair. -/
theorem compute_confidence_props_witness :
    confidenceOf 1000 50 = 1 ∧ confidenceOf 10 5 ≤ confidenceOf 20 7 :=
  ⟨compute_confidence_props.2.2.2 1000 50 le_rfl le_rfl,
   compute_confidence_props.2.2.1 10 20 5 7 (by decide) (by decide)⟩

/-- A successfully parsed `ThoughtData` never carries the revision fields:
`validate_thought_data` does not read them from the input. -/
theorem validate_thought_data_ok_shape {j : Json} {td : ThoughtData}
    (h : SequentialThinking.validate_thought_data j = .ok td) :
    td.is_revision = none ∧ td.revises_thought = none ∧
    td.needs_more_thoughts = none := by
  unfold SequentialThinking.validate_thought_data at h
  repeat (any_goals split at h)
  all_goals
    first
    | (injection h with heq; subst heq;
       exact ⟨by split <;> rfl, by split <;> rfl, by split <;> rfl⟩)
    | injection h

/-- Characterization of one successful `process_thought` call: the parsed
record, after the `total_thoughts` raise, is appended to the main sequence,
the branch map is updated exactly when both branch fields are present, and
the summary reports the record's own (possibly raised) counters. -/
theorem process_thought_ok_elim {st st' : SequentialThinking} {j : Json}
    {r : ThoughtSummary} (h : st.process_thought j = .ok (st', r)) :
    ∃ td0, SequentialThinking.validate_thought_data j = .ok td0 ∧
      (let td := if td0.thought_number > td0.total_thoughts
                 then { td0 with total_thoughts := td0.thought_number }
                 else td0
       st'.thought_history = st.thought_history ++ [td] ∧
       st'.branches = (match td.branch_from_thought, td.branch_id with
                       | some _, some bid => pushBranch st.branches bid td
                       | _, _ => st.branches) ∧
       r = ⟨td.thought_number, td.total_thoughts, td.next_thought_needed,
            st'.branches.map Prod.fst, st'.thought_history.length⟩) := by
  unfold SequentialThinking.process_thought at h
  cases hv : SequentialThinking.validate_thought_data j with
  | error e => rw [hv] at h; exact absurd h (by simp)
  | ok td0 =>
    rw [hv] at h
    simp only [Except.ok.injEq, Prod.mk.injEq] at h
    obtain ⟨hst, hr⟩ := h
    subst hst
    subst hr
    exact ⟨td0, rfl, rfl, rfl, rfl⟩

/-- A well-formed input makes `process_thought` succeed. -/
theorem process_thought_ok_of_validate (st : SequentialThinking) {j : Json}
    {td : ThoughtData}
    (hv : SequentialThinking.validate_thought_data j = .ok td) :
    ∃ st' r, st.process_thought j = .ok (st', r) := by
  unfold SequentialThinking.process_thought
  rw [hv]
  exact ⟨_, _, rfl⟩

/-- Claim C6 counterexample: a concrete two-record session.  The first
record (thought_number 5, total_thoughts 3) reports total 5, but the
second record (thought_number 1, total_thoughts 3) reports total 3 — not
the session-level `max(initial total_thoughts, max observed
thought_number) = max 3 (max 5 1) = 5` the claim predicts, and lower than
the previously reported 5. -/
theorem total_thoughts_not_session_max :
    stepTotal SequentialThinking.new (mkThoughtInput "alpha" 5 3 true)
      = some 5 ∧
    stepTotal
      (stepState SequentialThinking.new (mkThoughtInput "alpha" 5 3 true))
      (mkThoughtInput "beta" 1 3 false) = some 3 ∧
    max 3 (max 5 1) = 5 ∧ (3 : Nat) ≠ 5 :=
  ⟨rfl, rfl, rfl, by decide⟩

/-- Claim C6 (amended): the `total_thoughts` reported by `process_thought`
is per-record, not per-session: it equals the maximum of the incoming
record's own `total_thoughts` and `thought_number` (so within one record
it is raised to `thought_number` when exceeded and never lowered), and it
does not depend on the session state at all. -/
theorem total_thoughts_per_record_max (st st' : SequentialThinking)
    (j : Json) (r : ThoughtSummary)
    (h : st.process_thought j = .ok (st', r)) :
    ∃ td, SequentialThinking.validate_thought_data j = .ok td ∧
      r.thoughtNumber = td.thought_number ∧
      r.totalThoughts = max td.total_thoughts td.thought_number := by
  obtain ⟨td0, hv, _h1, _h2, h3⟩ := process_thought_ok_elim h
  refine ⟨td0, hv, ?_, ?_⟩
  · rw [h3]
    split <;> rfl
  · rw [h3]
    show (if td0.thought_number > td0.total_thoughts then _ else td0).total_thoughts = _
    split
    · next hgt =>
        have hm : max td0.total_thoughts td0.thought_number
            = td0.thought_number := by omega
        rw [hm]
    · next hle =>
        have hm : max td0.total_thoughts td0.thought_number
            = td0.total_thoughts := by omega
        rw [hm]

/-- Witness for the amended C6 theorem at a concrete call. -/
theorem total_thoughts_per_record_max_witness :
    ∃ td, SequentialThinking.validate_thought_data
            (mkThoughtInput "alpha" 5 3 true) = .ok td ∧
      (5 : Nat) = td.thought_number ∧
      (5 : Nat) = max td.total_thoughts td.thought_number := by
  have h := total_thoughts_per_record_max SequentialThinking.new
    (stepState SequentialThinking.new (mkThoughtInput "alpha" 5 3 true))
    (mkThoughtInput "alpha" 5 3 true)
    ⟨5, 5, true, [], 1⟩ (by rfl)
  simpa using h

/-- The formatting marker for any record without the revision flag is the
branch or plain-thought marker, never the revision marker. -/
theorem thoughtMarker_of_no_revision (td : ThoughtData)
    (h : td.is_revision = none) :
    thoughtMarker td =
      (if td.branch_from_thought.isSome then "🌿 Branch" else "💭 Thought") ∧
    thoughtMarker td ≠ "🔄 Revision" := by
  unfold thoughtMarker
  rw [h]
  constructor
  · rfl
  · show (if td.branch_from_thought.isSome then "🌿 Branch" else "💭 Thought")
        ≠ "🔄 Revision"
    split <;> decide

/-- Claim C10: a record produced through `process_thought` never carries
the revision fields (`validate_thought_data` does not read them), so the
revision marker of `format_thought` is unreachable for such records: the
prefix is always the branch or plain-thought marker. -/
theorem process_thought_never_revision (st st' : SequentialThinking)
    (j : Json) (r : ThoughtSummary)
    (h : st.process_thought j = .ok (st', r)) :
    ∃ td, st'.thought_history = st.thought_history ++ [td] ∧
      td.is_revision = none ∧ td.revises_thought = none ∧
      thoughtMarker td =
        (if td.branch_from_thought.isSome then "🌿 Branch" else "💭 Thought") ∧
      thoughtMarker td ≠ "🔄 Revision" := by
  obtain ⟨td0, hv, h1, _h2, _h3⟩ := process_thought_ok_elim h
  obtain ⟨hrev, hrevise, _⟩ := validate_thought_data_ok_shape hv
  have hrevN : (if td0.thought_number > td0.total_thoughts
      then { td0 with total_thoughts := td0.thought_number }
      else td0).is_revision = none := by split <;> simp [hrev]
  have hreviseN : (if td0.thought_number > td0.total_thoughts
      then { td0 with total_thoughts := td0.thought_number }
      else td0).revises_thought = none := by split <;> simp [hrevise]
  exact ⟨_, h1, hrevN, hreviseN,
         (thoughtMarker_of_no_revision _ hrevN).1,
         (thoughtMarker_of_no_revision _ hrevN).2⟩

/-- Witness for the C10 theorem at a concrete branch-carrying record. -/
theorem process_thought_never_revision_witness :
    ∃ td, (stepState SequentialThinking.new c10Input).thought_history
        = SequentialThinking.new.thought_history ++ [td] ∧
      td.is_revision = none ∧ td.revises_thought = none ∧
      thoughtMarker td =
        (if td.branch_from_thought.isSome then "🌿 Branch" else "💭 Thought") ∧
      thoughtMarker td ≠ "🔄 Revision" := by
  exact process_thought_never_revision SequentialThinking.new
    (stepState SequentialThinking.new c10Input) c10Input
    ⟨2, 2, false, ["B"], 1⟩ (by rfl)

/-- Looking a key up after the branch-map update: the updated key maps to
its old sub-sequence with the record appended, every other key is
untouched. -/
theorem lookup_pushBranch (bs : List (String × List ThoughtData))
    (b : String) (td : ThoughtData) (b' : String) :
    (pushBranch bs b td).lookup b' =
      if b' = b then some (((bs.lookup b).getD []) ++ [td])
      else bs.lookup b' := by
  induction bs with
  | nil =>
      simp only [pushBranch, List.lookup]
      cases hbk : b' == b with
      | true =>
          have heq : b' = b := by simpa using hbk
          simp [heq]
      | false =>
          have hne : ¬ b' = b := by simpa using hbk
          simp [hne]
  | cons kv rest ih =>
      obtain ⟨k, l⟩ := kv
      simp only [pushBranch]
      by_cases hk : k = b
      · subst hk
        simp only [if_pos rfl, List.lookup]
        cases hbk : b' == k with
        | true =>
            have heq : b' = k := by simpa using hbk
            simp [heq]
        | false =>
            have hne : ¬ b' = k := by simpa using hbk
            simp [hne]
      · rw [if_neg hk]
        simp only [List.lookup]
        cases hbk : b' == k with
        | true =>
            have heq : b' = k := by simpa using hbk
            subst heq
            simp [hk]
        | false =>
            have hne : ¬ b' = k := by simpa using hbk
            rw [ih]
            by_cases hb : b' = b
            · subst hb
              have hbk2 : (b' == k) = false := hbk
              simp [List.lookup, hbk2]
            · simp [hb]

/-- Invariant preservation over a whole record sequence: when every fed
record is well-formed, the session length grows by the number of records,
and for every branch id the stored sub-sequence is exactly the main
sequence filtered to that branch (hence same membership and same relative
order). -/
theorem processMany_inv (js : List Json) :
    ∀ st : SequentialThinking,
      (∀ b, branchOf st b = st.thought_history.filter (branchFilter b)) →
      (∀ j ∈ js, ∃ td, SequentialThinking.validate_thought_data j = .ok td) →
      (∀ b, branchOf (processMany st js) b =
        (processMany st js).thought_history.filter (branchFilter b)) ∧
      (processMany st js).thought_history.length
        = st.thought_history.length + js.length := by
  induction js with
  | nil =>
      intro st hInv _
      exact ⟨fun b => by simpa [processMany] using hInv b, by simp [processMany]⟩
  | cons j rest ih =>
      intro st hInv hok
      obtain ⟨td, hv⟩ := hok j (List.mem_cons_self j rest)
      obtain ⟨st', r, hstep⟩ :=
        process_thought_ok_of_validate st hv
      have hfold : processMany st (j :: rest) = processMany st' rest := by
        simp [processMany, hstep]
      obtain ⟨td0, _hv0, h1, h2, _h3⟩ := process_thought_ok_elim hstep
      set tdr := if td0.thought_number > td0.total_thoughts
                 then { td0 with total_thoughts := td0.thought_number }
                 else td0 with htdr
      have hInv' : ∀ b, branchOf st' b
          = st'.thought_history.filter (branchFilter b) := by
        intro b
        have hstb := hInv b
        simp only [branchOf] at hstb ⊢
        rw [h2, h1, List.filter_append]
        rcases hbf : tdr.branch_from_thought with _ | bf
        · have hflt : branchFilter b tdr = false := by
            simp [branchFilter, hbf]
          simp only [hbf]
          simp [hflt, hstb]
        · rcases hbid : tdr.branch_id with _ | bid
          · have hflt : branchFilter b tdr = false := by
              simp [branchFilter, hbid]
            simp only [hbf, hbid]
            simp [hflt, hstb]
          · simp only [hbf, hbid]
            rw [lookup_pushBranch]
            by_cases hb : b = bid
            · subst hb
              have hflt : branchFilter b tdr = true := by
                simp [branchFilter, hbf, hbid]
              simp [hflt, hstb]
            · have hflt : branchFilter b tdr = false := by
                simp only [branchFilter, hbf, hbid, Option.isSome_some,
                           Bool.true_and]
                simpa using Ne.symm hb
              simp [hb, hflt, hstb]
      have hlen : st'.thought_history.length
          = st.thought_history.length + 1 := by
        rw [h1]
        simp
      obtain ⟨ha, hb⟩ := ih st' hInv'
        (fun j hj => hok j (List.mem_cons_of_mem _ hj))
      refine ⟨fun b => by rw [hfold]; exact ha b, ?_⟩
      rw [hfold, hb, hlen]
      simp [Nat.add_assoc, Nat.add_comm 1]

/-- Claim C7: for every sequence of well-formed ThoughtRecords fed to one
fresh session, the main sequence's record count equals the number of
`process_thought` calls, and for every branch id the branch sub-sequence
is exactly the main sequence filtered to the records carrying that id —
so every such record appears in both, in the same relative order. -/
theorem session_count_and_branch_order (js : List Json)
    (hok : ∀ j ∈ js, ∃ td, SequentialThinking.validate_thought_data j = .ok td) :
    (processMany SequentialThinking.new js).thought_history.length
      = js.length ∧
    ∀ b, branchOf (processMany SequentialThinking.new js) b =
      (processMany SequentialThinking.new js).thought_history.filter
        (branchFilter b) := by
  have hInv0 : ∀ b, branchOf SequentialThinking.new b
      = SequentialThinking.new.thought_history.filter (branchFilter b) := by
    intro b
    simp [branchOf, SequentialThinking.new, List.lookup]
  have h := processMany_inv js SequentialThinking.new hInv0 hok
  exact ⟨by simpa [SequentialThinking.new] using h.2, h.1⟩

/-- Witness for the C7 theorem on a concrete two-record sequence with one
branch record. -/
theorem session_count_and_branch_order_witness :
    (processMany SequentialThinking.new c7Records).thought_history.length
      = c7Records.length ∧
    branchOf (processMany SequentialThinking.new c7Records) "B" =
      (processMany SequentialThinking.new c7Records).thought_history.filter
        (branchFilter "B") := by
  have h := session_count_and_branch_order c7Records
    (by
      intro j hj
      simp only [c7Records, c10Input, mkThoughtInput, List.mem_cons,
                 List.mem_singleton, List.not_mem_nil, or_false] at hj
      rcases hj with hj | hj <;> exact ⟨_, by rw [hj]; rfl⟩)
  exact ⟨h.1, h.2 "B"⟩

/-- Claim C2: the gateway retries a transport failure with backoff delay
`500 * 2 ^ (attempt - 1)` milliseconds before each retry (the slept delays
are always an initial segment of `[500, 1000]`), and when all
`MAX_RETRIES = 3` attempts fail at the transport level the call returns a
success — the synthesized fallback `EnhancedPrompt` echoing the prompt
under the fixed template, with confidence exactly `3/10` and the fallback
rationale — after sleeping 500 then 1000 milliseconds. -/
theorem gateway_retry_backoff_fallback :
    (∀ transport ds out,
       sendWithRetry transport 0 MAX_RETRIES = (ds, out) →
       ds = (List.range ds.length).map (fun k => 500 * 2 ^ k) ∧
       ds.length ≤ MAX_RETRIES - 1)
  ∧ (∀ (prompt : Prompt) (transport : Nat → SendOutcome),
       transport 1 = .fail → transport 2 = .fail → transport 3 = .fail →
       openrouterEnhance prompt transport =
         ([500, 1000],
          .ok ⟨"Enhanced: " ++ prompt.text,
               some "Fallback due to API failure after retries",
               some (3 / 10)⟩)) := by
  constructor
  · intro transport ds out h
    have hshape : ds = [] ∨ ds = [500] ∨ ds = [500, 1000] := by
      cases ht1 : transport 1 with
      | succ r =>
          simp [sendWithRetry, MAX_RETRIES, ht1] at h
          exact Or.inl h.1
      | fail =>
        cases ht2 : transport 2 with
        | succ r =>
            simp [sendWithRetry, MAX_RETRIES, ht1, ht2] at h
            exact Or.inr (Or.inl h.1.symm)
        | fail =>
          cases ht3 : transport 3 with
          | succ r =>
              simp [sendWithRetry, MAX_RETRIES, ht1, ht2, ht3] at h
              exact Or.inr (Or.inr h.1.symm)
          | fail =>
              simp [sendWithRetry, MAX_RETRIES, ht1, ht2, ht3] at h
              exact Or.inr (Or.inr h.1.symm)
    rcases hshape with hds | hds | hds <;> subst hds <;>
      exact ⟨by decide, by decide⟩
  · intro prompt transport h1 h2 h3
    simp [openrouterEnhance, sendWithRetry, MAX_RETRIES, h1, h2, h3]

/-- Witness for the C2 theorem: a transport that always fails produces the
fallback after delays 500 and 1000. -/
theorem gateway_retry_backoff_fallback_witness :
    openrouterEnhance ⟨"hi"⟩ (fun _ => SendOutcome.fail) =
      ([500, 1000],
       .ok ⟨"Enhanced: " ++ "hi",
            some "Fallback due to API failure after retries",
            some (3 / 10)⟩) :=
  gateway_retry_backoff_fallback.2 ⟨"hi"⟩ (fun _ => SendOutcome.fail)
    rfl rfl rfl

/-- Claim C8: when an attempt obtains an HTTP response, a non-2xx status
is returned immediately as `RequestFailed`, and a 2xx response whose body
cannot be parsed — or parses to an empty choices list — is returned
immediately as `UnexpectedResponse`; in each case no further delay is
slept (the delay list is exactly the one accumulated before the response)
and the graceful-degradation fallback is not produced. -/
theorem gateway_response_errors (prompt : Prompt)
    (transport : Nat → SendOutcome) (r : HttpResp) (ds : List Nat)
    (h : sendWithRetry transport 0 MAX_RETRIES = (ds, some r)) :
    (statusIsSuccess r.status = false →
      openrouterEnhance prompt transport =
        (ds, .error (.RequestFailed ("status " ++ toString r.status))))
  ∧ (statusIsSuccess r.status = true → r.choices = none →
      openrouterEnhance prompt transport =
        (ds, .error (.UnexpectedResponse "body parse failure")))
  ∧ (statusIsSuccess r.status = true → r.choices = some [] →
      openrouterEnhance prompt transport =
        (ds, .error (.UnexpectedResponse "no choices"))) := by
  refine ⟨fun hs => ?_, fun hs hc => ?_, fun hs hc => ?_⟩
  · simp [openrouterEnhance, h, hs]
  · simp [openrouterEnhance, h, hs, hc]
  · simp [openrouterEnhance, h, hs, hc]

/-- Witness for the C8 theorem: a first-attempt 404 response fails
immediately with `RequestFailed` and no backoff. -/
theorem gateway_response_errors_witness :
    openrouterEnhance ⟨"p"⟩ (fun _ => SendOutcome.succ ⟨404, none⟩) =
      ([], .error (.RequestFailed ("status " ++ toString (404 : Nat)))) :=
  (gateway_response_errors ⟨"p"⟩ (fun _ => SendOutcome.succ ⟨404, none⟩)
      ⟨404, none⟩ [] rfl).1 rfl

/-- The loop records parse successfully, so the refinement loop collapses
to the nested-call chain: from iteration `i` on, `n - i` nested calls
remain. -/
theorem thinkLoop_eq_nestedChain
    (provider : Prompt → EnhancementOptions → Except LLMError EnhancedPrompt)
    (options : EnhancementOptions) (n : Nat) :
    ∀ i (st : SequentialThinking) (e : EnhancedPrompt),
      thinkLoop provider options n st e i
        = nestedChain provider options e (n - i) := by
  have H : ∀ k i st e, n + 1 - i = k →
      thinkLoop provider options n st e i
        = nestedChain provider options e (n - i) := by
    intro k
    induction k with
    | zero =>
        intro i st e hk
        have hni : n < i := by omega
        have hz : n - i = 0 := by omega
        rw [thinkLoop, dif_pos hni, hz]
        rfl
    | succ k ih =>
        intro i st e hk
        have hni : ¬ n < i := by omega
        rw [thinkLoop, dif_neg hni]
        obtain ⟨st', r, hstep⟩ := process_thought_ok_of_validate st
          (show SequentialThinking.validate_thought_data
              (mkThoughtInput e.text i n (!(i == n)))
            = .ok (ThoughtData.new e.text (i % 2 ^ 32) (n % 2 ^ 32)
                (!(i == n))) from rfl)
        simp only [hstep]
        by_cases hin : i = n
        · have hlast : (i == n) = true := by simpa using hin
          rw [if_pos hlast]
          rw [ih (i + 1) st' e (by omega)]
          have h1 : n - i = 0 := by omega
          have h2 : n - (i + 1) = 0 := by omega
          rw [h1, h2]
        · have hlast : (i == n) = false := by simpa using hin
          rw [if_neg (by simp [hlast])]
          have hlt : i < n := by omega
          have hsub : n - i = (n - (i + 1)) + 1 := by omega
          rw [hsub]
          show (match provider ⟨e.text⟩ (seqOff options) with
                | .error e => .error (.provider e)
                | .ok e' => thinkLoop provider options n st' e' (i + 1))
            = nestedChain provider options e ((n - (i + 1)) + 1)
          cases hprov : provider ⟨e.text⟩ (seqOff options) with
          | error err => simp [nestedChain, hprov]
          | ok e' =>
              simp only [nestedChain, hprov]
              exact ih (i + 1) st' e' (by omega)
  intro i st e
  exact H (n + 1 - i) i st e rfl

/-- Claim C4: with sequential thinking enabled and `n` the requested
thought count (default 3), every loop iteration `i` feeds the engine a
record parsing to `thought_number = i`, `total_thoughts = n`,
`next_thought_needed` exactly the passed flag (`i ≠ n` in the loop); such
records always parse, so the engine call never fails and the loop reduces
to `n - 1` nested gateway calls, each on the current text with sequential
thinking forced off in the nested options, each replacing the current
value; `execute` returns the last value (or propagates a nested provider
error). -/
theorem execute_sequential_refinement :
    (∀ (t : String) (i n : Nat) (b : Bool),
       SequentialThinking.validate_thought_data (mkThoughtInput t i n b)
         = .ok (ThoughtData.new t (i % 2 ^ 32) (n % 2 ^ 32) b))
  ∧ (∀ (st : SequentialThinking) (t : String) (i n : Nat) (b : Bool),
       ∃ st' r, st.process_thought (mkThoughtInput t i n b) = .ok (st', r))
  ∧ (∀ provider config prompt options e0,
       provider prompt options = .ok e0 →
       validate_enhanced_prompt e0 = .ok () →
       options.enable_sequential_thinking.getD
         config.sequential_thinking_enabled = true →
       execute provider config prompt options =
         nestedChain provider options
           { e0 with confidence := some (compute_confidence e0) }
           (options.thought_count.getD 3 - 1)) := by
  refine ⟨fun t i n b => rfl, ?_, ?_⟩
  · intro st t i n b
    exact process_thought_ok_of_validate st
      (show SequentialThinking.validate_thought_data (mkThoughtInput t i n b)
        = .ok (ThoughtData.new t (i % 2 ^ 32) (n % 2 ^ 32) b) from rfl)
  · intro provider config prompt options e0 hp hv hen
    have hloop := thinkLoop_eq_nestedChain provider options
      (options.thought_count.getD 3) 1 SequentialThinking.new
      { e0 with confidence := some (compute_confidence e0) }
    simp [execute, hp, hv, hen, hloop]

/-- Witness for the C4 theorem: a constant provider with thought count 2
reduces to one nested call. -/
theorem execute_sequential_refinement_witness :
    execute (fun _ _ => .ok ⟨c5Good, none, none⟩) ⟨false⟩ ⟨"x"⟩ c5Options =
      nestedChain (fun _ _ => .ok ⟨c5Good, none, none⟩) c5Options
        ⟨c5Good, none, some (compute_confidence ⟨c5Good, none, none⟩)⟩ 1 := by
  exact execute_sequential_refinement.2.2
    (fun _ _ => .ok ⟨c5Good, none, none⟩) ⟨false⟩ ⟨"x"⟩ c5Options
    ⟨c5Good, none, none⟩ rfl (by rfl) rfl

/-- Claim C5: the validation gate runs exactly once, on the first gateway
result: a validation failure there aborts `execute` with that validation
error, while the text produced by refinement-loop iterations replaces the
result without being re-validated, so `execute` can return a text the
gate rejects. -/
theorem validation_gate_first_pass_only :
    (∀ provider config prompt options e0 v,
       provider prompt options = .ok e0 →
       validate_enhanced_prompt e0 = .error v →
       execute provider config prompt options = .error (.validation v))
  ∧ (execute c5Provider ⟨false⟩ ⟨"start"⟩ c5Options
       = .ok ⟨"bad", none, none⟩ ∧
     validate_enhanced_prompt ⟨"bad", none, none⟩ = .error .TooShort) := by
  refine ⟨?_, ?_, ?_⟩
  · intro provider config prompt options e0 v hp hv
    simp [execute, hp, hv]
  · have hp : c5Provider ⟨"start"⟩ c5Options = .ok ⟨c5Good, none, none⟩ := rfl
    have hv : validate_enhanced_prompt ⟨c5Good, none, none⟩ = .ok () := rfl
    have hloop := thinkLoop_eq_nestedChain c5Provider c5Options
      (c5Options.thought_count.getD 3) 1 SequentialThinking.new
      ⟨c5Good, none,
       some (compute_confidence ⟨c5Good, none, none⟩)⟩
    simp only [execute, hp, hv, hloop]
    rfl
  · rfl

/-- Witness for the C5 theorem: a provider whose first answer fails the
gate makes `execute` abort with that validation error. -/
theorem validation_gate_first_pass_only_witness :
    execute (fun _ _ => .ok ⟨"bad", none, none⟩) ⟨true⟩ ⟨"x"⟩ {} =
      .error (.validation .TooShort) :=
  validation_gate_first_pass_only.1
    (fun _ _ => .ok ⟨"bad", none, none⟩) ⟨true⟩ ⟨"x"⟩ {}
    ⟨"bad", none, none⟩ .TooShort rfl rfl

/-- Claim C1: a well-formed `tools/call` of `enhance_prompt` whose
orchestrator call fails is answered with a normal result carrying the
`isError:true` content envelope and the error message as text — the
JSON-RPC `error` field stays absent; JSON-RPC-level error objects arise
only from unknown methods or unknown tool names (−32601) and malformed
params or arguments (−32602), while −32700 is produced only for an input
line that fails to parse (with no `id` echoed). -/
theorem dispatcher_tool_error_mapping :
    (∀ (orch : Prompt → EnhancementOptions → Except ExecError EnhancedPrompt)
       (id : Option Json) (params : Json) (p : ToolCallParams)
       (a : EnhanceArgs) (e : ExecError),
       parseToolCallParams params = .ok p → p.name = "enhance_prompt" →
       parseEnhanceArgs p.arguments = .ok a →
       orch ⟨a.prompt⟩ (argsToOptions a) = .error e →
       handle_request orch ⟨"2.0", id, "tools/call", params⟩ =
         ⟨"2.0", id, some (errorEnvelope ("tool error: " ++ e.display)),
          none⟩)
  ∧ (∀ orch req err, (handle_request orch req).error = some err →
       (err.code = -32601 ∧
         (req.method ∉ (["initialize", "mcp/initialize", "tools/list",
                         "tools/call", "ping", "shutdown"] : List String) ∨
          (req.method = "tools/call" ∧
           ∃ p, parseToolCallParams req.params = .ok p ∧
                p.name ≠ "enhance_prompt"))) ∨
       (err.code = -32602 ∧ req.method = "tools/call" ∧
         ((∃ msg, parseToolCallParams req.params = .error msg) ∨
          (∃ p, parseToolCallParams req.params = .ok p ∧
                p.name = "enhance_prompt" ∧
                ∃ msg, parseEnhanceArgs p.arguments = .error msg))))
  ∧ (∀ orch msg, dispatchLine orch (.error msg) =
       ⟨"2.0", none, none, some ⟨-32700, "parse error: " ++ msg, none⟩⟩) := by
  refine ⟨?_, ?_, fun orch msg => rfl⟩
  · intro orch id params p a e hp hname ha he
    simp [handle_request, hp, hname, ha, he]
  · intro orch req err h
    unfold handle_request at h
    by_cases h1 : req.method = "initialize" ∨ req.method = "mcp/initialize"
    · rw [if_pos h1] at h
      simp at h
    · rw [if_neg h1] at h
      by_cases h2 : req.method = "tools/list"
      · rw [if_pos h2] at h
        simp at h
      · rw [if_neg h2] at h
        by_cases h3 : req.method = "tools/call"
        · rw [if_pos h3] at h
          cases hp : parseToolCallParams req.params with
          | error msg =>
              rw [hp] at h
              simp at h
              subst h
              exact Or.inr ⟨rfl, h3, Or.inl ⟨msg, rfl⟩⟩
          | ok p =>
              rw [hp] at h
              by_cases hn : p.name ≠ "enhance_prompt"
              · simp [hn] at h
                subst h
                exact Or.inl ⟨rfl, Or.inr ⟨h3, p, rfl, hn⟩⟩
              · push_neg at hn
                simp [hn] at h
                cases ha : parseEnhanceArgs p.arguments with
                | error msg =>
                    rw [ha] at h
                    simp at h
                    subst h
                    exact Or.inr ⟨rfl, h3, Or.inr ⟨p, rfl, hn, msg, ha⟩⟩
                | ok a =>
                    rw [ha] at h
                    cases ho : orch ⟨a.prompt⟩ (argsToOptions a) with
                    | ok ep => simp [ho] at h
                    | error e => simp [ho] at h
        · rw [if_neg h3] at h
          by_cases h4 : req.method = "ping"
          · rw [if_pos h4] at h
            simp at h
          · rw [if_neg h4] at h
            by_cases h5 : req.method = "shutdown"
            · rw [if_pos h5] at h
              simp at h
            · rw [if_neg h5] at h
              simp at h
              refine Or.inl ⟨by simp [← h], Or.inl ?_⟩
              simp only [List.mem_cons, List.mem_singleton,
                         List.not_mem_nil]
              push_neg
              have h1a : ¬ req.method = "initialize" := fun hh => h1 (Or.inl hh)
              have h1b : ¬ req.method = "mcp/initialize" :=
                fun hh => h1 (Or.inr hh)
              exact ⟨h1a, h1b, h2, h3, h4, h5, by simp⟩

/-- Witness for the C1 theorem: a concrete `tools/call` whose orchestrator
fails with a validation error yields the `isError` envelope with no
JSON-RPC error, and a concrete unparsable line yields −32700 with no id. -/
theorem dispatcher_tool_error_mapping_witness :
    handle_request (fun _ _ => .error (.validation .TooShort))
      ⟨"2.0", some (.num 1), "tools/call",
       .obj [("name", .str "enhance_prompt"),
             ("arguments", .obj [("prompt", .str "write code")])]⟩ =
      ⟨"2.0", some (.num 1),
       some (errorEnvelope
         ("tool error: " ++ (ExecError.validation .TooShort).display)),
       none⟩ ∧
    dispatchLine (fun _ _ => .error (.validation .TooShort))
      (.error "bad line") =
      ⟨"2.0", none, none,
       some ⟨-32700, "parse error: " ++ "bad line", none⟩⟩ :=
  ⟨dispatcher_tool_error_mapping.1
      (fun _ _ => .error (.validation .TooShort)) (some (.num 1))
      (.obj [("name", .str "enhance_prompt"),
             ("arguments", .obj [("prompt", .str "write code")])])
      ⟨"enhance_prompt", .obj [("prompt", .str "write code")]⟩
      ⟨"write code", none, none, none, none, none, none⟩
      (.validation .TooShort) rfl rfl rfl rfl,
   dispatcher_tool_error_mapping.2.2
      (fun _ _ => .error (.validation .TooShort)) "bad line"⟩

end Anytra
